import Mathlib

/-!
Shallow embedding of `pagediterator.py` (class `PagedIterator`).

The Python class keeps two mutable attributes, `cached_pages` (a dict from
page number to page contents) and `index` (the iteration cursor).  The three
overridable accessors `page_size`, `total_size` and `get_page` are supplied by
the concrete subclass; they are modelled as a record of (possibly failing)
values, `PageSource`.  Every method is translated as a function from the
object state to a triple `(result, new state, fetch log)` where the fetch log
records the page numbers passed to `get_page` during the call — the Python
state does not contain this log, it only makes the `get_page` invocations of a
call observable in the model.
-/

namespace Pagediterator

/-- Python exception values raised by the code under study: `ValueError`,
`IndexError`, `RuntimeError`, `ZeroDivisionError`, `AssertionError`,
`StopIteration`, plus an opaque error that a concrete `get_page`
implementation may raise. -/
inductive PyError where
  | valueError (msg : String)
  | indexError (msg : String)
  | runtimeError (msg : String)
  | zeroDivisionError
  | assertionError
  | stopIteration
  | sourceError (msg : String)
deriving DecidableEq

/-- An argument passed to a dunder method: either a Python `int`, or some
non-integer value (carried as the string Python's `%s` formatting produces
for it). -/
inductive PyVal where
  | int (i : Int)
  | other (txt : String)
deriving DecidableEq

/-- String produced by Python's `"%s" % offset` for a `PyVal`. -/
def PyVal.fmt : PyVal → String
  | .int i => toString i
  | .other t => t

/-- The three accessors a concrete subclass overrides.  `page_size` and
`total_size` are property reads (which may raise), `get_page` fetches one
page.  The pages are modelled immutably, so reading an accessor twice gives
the same outcome, matching the spec's constancy assumption. -/
structure PageSource (α : Type) where
  page_size : Except PyError Int
  total_size : Except PyError Int
  get_page : Int → Except PyError (List α)

/-- The mutable state of a `PagedIterator` object: the page cache
(`self.cached_pages`, a dict modelled as a total function to `Option`) and
the iteration cursor (`self.index`). -/
structure IterState (α : Type) where
  cached_pages : Int → Option (List α)
  index : Nat

/-- Embeds `PagedIterator.__init__`: empty cache, cursor at 0. -/
def initState (α : Type) : IterState α := ⟨fun _ => none, 0⟩

/-- The accessors of a `PagedIterator` on which the subclass overrides
nothing: `page_size` raises `RuntimeError`, `total_size` returns 0,
`get_page` raises `RuntimeError` (lines 87-122 of the source). -/
def defaultSource (α : Type) : PageSource α :=
  ⟨.error (.runtimeError "page_size() must be implemented."),
   .ok 0,
   fun _ => .error (.runtimeError "get_page() must be implemented.")⟩

/-- Embeds Python's builtin `len(self)`, which calls `__len__`
(returning `self.total_size`) and rejects a negative result. -/
def pyLen (src : PageSource α) : Except PyError Int :=
  match src.total_size with
  | .error e => .error e
  | .ok n => if n < 0 then .error (.valueError "__len__() should return >= 0") else .ok n

/-- Embeds Python list indexing `xs[k]`: a negative index counts from the
end, an index outside the list raises `IndexError`. -/
def pyListGet (xs : List α) (k : Int) : Except PyError α :=
  let j := if k < 0 then k + xs.length else k
  if 0 ≤ j then
    match xs[j.toNat]? with
    | some v => .ok v
    | none => .error (.indexError "list index out of range")
  else .error (.indexError "list index out of range")

/-- Embeds `PagedIterator.__contains__`: `assert isinstance(offset, int)`
(raising `AssertionError` on a non-integer), then
`offset >= 0 and offset < len(self)` with Python's short-circuit `and`
(for a negative offset, `len` is not read).  The method touches neither the
cache nor the cursor and never calls `get_page`, hence the returned state is
the input state and the fetch log is empty. -/
def containsPI (src : PageSource α) (st : IterState α) (offset : PyVal) :
    Except PyError Bool × IterState α × List Int :=
  match offset with
  | .other _ => (.error .assertionError, st, [])
  | .int i =>
    if i < 0 then (.ok false, st, [])
    else
      match pyLen src with
      | .error e => (.error e, st, [])
      | .ok n => (.ok (decide (i < n)), st, [])

/-- Embeds `PagedIterator.__getitem__` (lines 144-164):
type check (`ValueError`), bounds check via `__contains__` (`IndexError`),
`page = int(offset / self.page_size)` — true division truncated toward zero,
exact for the integer magnitudes modelled here, hence `Int.tdiv`; division by
a zero page size raises `ZeroDivisionError` — then fetch-and-cache on a miss
and return `self.cached_pages[page][offset % self.page_size]` (Python `%` is
floor-mod, `Int.fmod`). -/
def getitemPI (src : PageSource α) (st : IterState α) (offset : PyVal) :
    Except PyError α × IterState α × List Int :=
  match offset with
  | .other t => (.error (.valueError ("Index must be a positive integer: " ++ t)), st, [])
  | .int i =>
    match (containsPI src st (.int i)).1 with
    | .error e => (.error e, st, [])
    | .ok false => (.error (.indexError ("Index out of bounds: " ++ toString i)), st, [])
    | .ok true =>
      match src.page_size with
      | .error e => (.error e, st, [])
      | .ok ps =>
        if ps = 0 then (.error .zeroDivisionError, st, [])
        else
          match st.cached_pages (Int.tdiv i ps) with
          | some xs => (pyListGet xs (Int.fmod i ps), st, [])
          | none =>
            match src.get_page (Int.tdiv i ps) with
            | .error e => (.error e, st, [Int.tdiv i ps])
            | .ok xs =>
              (pyListGet xs (Int.fmod i ps),
               ⟨fun p => if p = Int.tdiv i ps then some xs else st.cached_pages p, st.index⟩,
               [Int.tdiv i ps])

/-- Embeds `PagedIterator.__setitem__`: always raises `RuntimeError`,
touching nothing. -/
def setitemPI (st : IterState α) (key : PyVal) (value : α) :
    Except PyError Unit × IterState α × List Int :=
  (.error (.runtimeError "Setting values is not allowed."), st, [])

/-- Embeds `PagedIterator.__delitem__`: always raises `RuntimeError`,
touching nothing. -/
def delitemPI (st : IterState α) (key : PyVal) :
    Except PyError Unit × IterState α × List Int :=
  (.error (.runtimeError "Unsetting values is not allowed."), st, [])

/-- Embeds `PagedIterator.__iter__`: resets `self.index` to 0 and returns
`self` — the cache is untouched. -/
def iterPI (st : IterState α) : IterState α := ⟨st.cached_pages, 0⟩

/-- Embeds `PagedIterator.next` (alias `__next__`): reads `self.total_size`
(the `assert isinstance(..., int)` always passes in the model, where an
overridden `total_size` that returns at all returns an integer), raises
`StopIteration` once the cursor has reached it, otherwise increments the
cursor first and then delegates to `__getitem__` at the pre-increment
cursor (`self[self.index - 1]`). -/
def nextPI (src : PageSource α) (st : IterState α) :
    Except PyError α × IterState α × List Int :=
  match src.total_size with
  | .error e => (.error e, st, [])
  | .ok ts =>
    if (st.index : Int) ≥ ts then (.error .stopIteration, st, [])
    else
      getitemPI src ⟨st.cached_pages, st.index + 1⟩ (.int (st.index : Int))

/-- Outcome of running a Python `for` loop over the iterator with a given
amount of fuel: the loop finished normally (`next` raised `StopIteration`),
an error propagated out of `next`, or the fuel ran out first. -/
inductive LoopResult (α : Type) where
  | finished (items : List α) (st : IterState α) (log : List Int)
  | failed (items : List α) (st : IterState α) (log : List Int) (e : PyError)
  | outOfFuel (items : List α) (st : IterState α) (log : List Int)

/-- Runs the body of `for item in self`: repeatedly calls `next`, collecting
the yielded items and the fetch log, until `StopIteration` (normal
termination), another error, or fuel exhaustion.  (The Python loop needs no
fuel; any fuel larger than `total_size` is enough for the model to finish.) -/
def forLoop (src : PageSource α) : Nat → IterState α → LoopResult α
  | 0, st => .outOfFuel [] st []
  | fuel + 1, st =>
    match nextPI src st with
    | (.error .stopIteration, st1, log) => .finished [] st1 log
    | (.error e, st1, log) => .failed [] st1 log e
    | (.ok v, st1, log) =>
      match forLoop src fuel st1 with
      | .finished items st2 log2 => .finished (v :: items) st2 (log ++ log2)
      | .failed items st2 log2 e => .failed (v :: items) st2 (log ++ log2) e
      | .outOfFuel items st2 log2 => .outOfFuel (v :: items) st2 (log ++ log2)

/-- A concrete well-behaved `PageSource` over a flat list: page `p` holds the
slice of `data` from `p * ps` of length at most `ps`, `total_size` is the
length of `data`, `page_size` is `ps`.  This is the shape of source the
class's docstring and tests use (for instance `pages = [[1,2,3],[4,5,6],[7,8]]`). -/
def listSource (ps : Nat) (data : List α) : PageSource α :=
  ⟨.ok ps, .ok data.length, fun p => .ok ((data.drop (p.toNat * ps)).take ps)⟩

/-- One observable operation on a `PagedIterator` instance. -/
inductive Op (α : Type) where
  | get (x : PyVal)
  | set (k : PyVal) (v : α)
  | del (k : PyVal)
  | contains (x : PyVal)
  | iter
  | next

/-- Runs one operation, keeping its state effect and fetch log. -/
def runOp (src : PageSource α) (st : IterState α) : Op α → IterState α × List Int
  | .get x => (getitemPI src st x).2
  | .set k v => (setitemPI st k v).2
  | .del k => (delitemPI st k).2
  | .contains x => (containsPI src st x).2
  | .iter => (iterPI st, [])
  | .next => (nextPI src st).2

/-- Runs a whole lifetime of operations from a starting state, concatenating
the fetch logs. -/
def runOps (src : PageSource α) (st : IterState α) : List (Op α) → IterState α × List Int
  | [] => (st, [])
  | op :: ops =>
    let r := runOp src st op
    let r2 := runOps src r.1 ops
    (r2.1, r.2 ++ r2.2)

/-- Every page sitting in the cache is exactly what the source returns for
that page number.  This holds of the empty cache and is preserved by every
operation; it states that the cache was filled by (deterministic) fetches. -/
def CacheConsistent (src : PageSource α) (st : IterState α) : Prop :=
  ∀ p xs, st.cached_pages p = some xs → src.get_page p = .ok xs

/-! Basic computation lemmas. -/

lemma tdiv_coe (m n : Nat) : Int.tdiv (m : Int) (n : Int) = ((m / n : Nat) : Int) := rfl

lemma fmod_coe (m n : Nat) : Int.fmod (m : Int) (n : Int) = ((m % n : Nat) : Int) :=
  (Int.ofNat_fmod m n).symm

lemma pyListGet_coe (xs : List α) (n : Nat) (v : α) (h : xs[n]? = some v) :
    pyListGet xs (n : Int) = .ok v := by
  have h0 : ¬((n : Int) < 0) := by omega
  have h1 : (0 : Int) ≤ (n : Int) := by omega
  simp only [pyListGet, h0, if_false, if_pos h1, Int.toNat_ofNat, h]

lemma slice_getElem? (data : List α) (ps i : Nat) (hps : 0 < ps) :
    ((data.drop (i / ps * ps)).take ps)[i % ps]? = data[i]? := by
  rw [List.getElem?_take_of_lt (Nat.mod_lt i hps), List.getElem?_drop]
  congr 1
  exact Nat.div_add_mod' i ps

lemma pyListGet_slice (data : List α) (ps i : Nat) (hps : 0 < ps) (h : i < data.length) :
    pyListGet ((data.drop (i / ps * ps)).take ps) ((i % ps : Nat) : Int) =
      .ok (data.get ⟨i, h⟩) := by
  apply pyListGet_coe
  rw [slice_getElem? data ps i hps, List.getElem?_eq_getElem h, List.get_eq_getElem]

lemma containsPI_int_neg (src : PageSource α) (st : IterState α) (i : Int) (hi : i < 0) :
    containsPI src st (.int i) = (.ok false, st, []) := by
  simp only [containsPI, if_pos hi]

lemma containsPI_int_nonneg (src : PageSource α) (st : IterState α) (i ts : Int)
    (hi : 0 ≤ i) (h1 : src.total_size = .ok ts) (h2 : 0 ≤ ts) :
    containsPI src st (.int i) = (.ok (decide (i < ts)), st, []) := by
  have h3 : ¬(i < 0) := by omega
  have h4 : ¬(ts < 0) := by omega
  simp only [containsPI, pyLen, h1, if_neg h3, if_neg h4]

lemma containsPI_snd (src : PageSource α) (st : IterState α) (x : PyVal) :
    (containsPI src st x).2 = (st, []) := by
  cases x with
  | int i =>
    simp only [containsPI]
    split
    · rfl
    · split <;> rfl
  | other t => rfl

/-! Generic structural lemmas about `__getitem__`, valid for any source:
the cursor is untouched, and an existing cache entry is never changed. -/

lemma getitem_index (src : PageSource α) (st : IterState α) (x : PyVal) :
    (getitemPI src st x).2.1.index = st.index := by
  cases x with
  | int i =>
    simp only [getitemPI]
    repeat' split
    all_goals rfl
  | other t => rfl

lemma getitem_cache_mono (src : PageSource α) (st : IterState α) (x : PyVal)
    (p : Int) (xs : List α) (hp : st.cached_pages p = some xs) :
    (getitemPI src st x).2.1.cached_pages p = some xs := by
  cases x with
  | other t => exact hp
  | int i =>
    simp only [getitemPI]
    rcases hc : (containsPI src st (.int i)).1 with e | b
    · simp only [hc]; exact hp
    · cases b with
      | false => simp only [hc]; exact hp
      | true =>
        simp only [hc]
        rcases hpz : src.page_size with e | ps
        · simp only [hpz]; exact hp
        · simp only [hpz]
          by_cases h0 : ps = 0
          · simp only [if_pos h0]; exact hp
          · simp only [if_neg h0]
            rcases hcache : st.cached_pages (Int.tdiv i ps) with _ | ys
            · simp only [hcache]
              rcases hgp : src.get_page (Int.tdiv i ps) with e | zs
              · simp only [hgp]; exact hp
              · simp only [hgp]
                have hne : p ≠ Int.tdiv i ps := by
                  intro hpe
                  rw [hpe] at hp
                  rw [hp] at hcache
                  cases hcache
                simp only [if_neg hne]
                exact hp
            · simp only [hcache]; exact hp

/-- Full characterization of a valid `__getitem__` call against a
`listSource`: the flat element comes back, the cursor is untouched, the cache
grows by at most the enclosing page, a hit changes nothing, and `get_page` is
called exactly on a miss of the enclosing page. -/
lemma getitem_valid (ps : Nat) (data : List α) (st : IterState α) (i : Nat)
    (hps : 0 < ps) (hcons : CacheConsistent (listSource ps data) st) (h : i < data.length) :
    ∃ st1 log,
      getitemPI (listSource ps data) st (.int (i : Int)) = (.ok (data.get ⟨i, h⟩), st1, log)
      ∧ CacheConsistent (listSource ps data) st1
      ∧ st1.index = st.index
      ∧ (∀ p xs, st.cached_pages p = some xs → st1.cached_pages p = some xs)
      ∧ st1.cached_pages ((i / ps : Nat) : Int) ≠ none
      ∧ (st.cached_pages ((i / ps : Nat) : Int) ≠ none → st1 = st ∧ log = [])
      ∧ (∀ p, p ∈ log → st.cached_pages p = none ∧ st1.cached_pages p ≠ none)
      ∧ log.Nodup := by
  have hts : (listSource ps data).total_size = .ok (data.length : Int) := rfl
  have hcont1 : (containsPI (listSource ps data) st (.int (i : Int))).1 = .ok true := by
    rw [containsPI_int_nonneg (listSource ps data) st _ _ (by omega) hts (by omega)]
    have hlt : ((i : Int) < (data.length : Int)) := by omega
    simp [hlt]
  have hpz : (listSource ps data).page_size = .ok (ps : Int) := rfl
  have hps0 : ¬((ps : Int) = 0) := by omega
  have hpage : Int.tdiv (i : Int) (ps : Int) = ((i / ps : Nat) : Int) := tdiv_coe i ps
  have hmod : Int.fmod (i : Int) (ps : Int) = ((i % ps : Nat) : Int) := fmod_coe i ps
  have hslice : (listSource ps data).get_page ((i / ps : Nat) : Int) =
      .ok ((data.drop (i / ps * ps)).take ps) := rfl
  rcases hcache : st.cached_pages ((i / ps : Nat) : Int) with _ | xs
  · -- cache miss: the page is fetched and stored
    refine ⟨⟨fun p => if p = ((i / ps : Nat) : Int)
        then some ((data.drop (i / ps * ps)).take ps)
        else st.cached_pages p, st.index⟩, [((i / ps : Nat) : Int)],
        ?_, ?_, rfl, ?_, ?_, ?_, ?_, ?_⟩
    · simp only [getitemPI, hcont1, hpz, if_neg hps0, hpage, hcache, hslice, hmod,
        pyListGet_slice data ps i hps h]
    · intro p xs hp
      dsimp only at hp
      by_cases hpe : p = ((i / ps : Nat) : Int)
      · subst hpe
        rw [if_pos rfl] at hp
        injection hp with hx
        subst hx
        exact hslice
      · rw [if_neg hpe] at hp
        exact hcons p xs hp
    · intro p xs hp
      have hpe : p ≠ ((i / ps : Nat) : Int) := by
        intro hpe
        rw [hpe, hcache] at hp
        cases hp
      dsimp only
      simp only [if_neg hpe]
      exact hp
    · dsimp only
      simp only [if_pos rfl]
      simp
    · intro hcontra
      exact absurd rfl hcontra
    · intro p hp
      simp only [List.mem_singleton] at hp
      subst hp
      refine ⟨hcache, ?_⟩
      dsimp only
      rw [if_pos rfl]
      simp
    · simp
  · -- cache hit: nothing changes and nothing is fetched
    have hxs : xs = (data.drop (i / ps * ps)).take ps := by
      have h2 := hcons _ _ hcache
      rw [hslice] at h2
      injection h2 with h3
      exact h3.symm
    refine ⟨st, [], ?_, hcons, rfl, fun p xs hp => hp, ?_, fun _ => ⟨rfl, rfl⟩, by simp, by simp⟩
    · simp only [getitemPI, hcont1, hpz, if_neg hps0, hpage, hcache, hmod]
      rw [hxs, pyListGet_slice data ps i hps h]
    · rw [hcache]
      simp

lemma forLoop_succ (src : PageSource α) (fuel : Nat) (st : IterState α) :
    forLoop src (fuel + 1) st =
      match nextPI src st with
      | (.error .stopIteration, st1, log) => .finished [] st1 log
      | (.error e, st1, log) => .failed [] st1 log e
      | (.ok v, st1, log) =>
        match forLoop src fuel st1 with
        | .finished items st2 log2 => .finished (v :: items) st2 (log ++ log2)
        | .failed items st2 log2 e => .failed (v :: items) st2 (log ++ log2) e
        | .outOfFuel items st2 log2 => .outOfFuel (v :: items) st2 (log ++ log2) := rfl

/-- Running the `for` loop from any consistent state with cursor `index` and
`n` items left to go finishes normally, yielding exactly the remaining slice
of the flat data, ending with the cursor at the end, the cache grown
monotonically and covering every visited offset's page; and if every visited
page was already cached at the start, no page is fetched at all. -/
lemma forLoop_run (ps : Nat) (data : List α) (hps : 0 < ps) :
    ∀ (n : Nat) (st : IterState α), CacheConsistent (listSource ps data) st →
      st.index + n = data.length →
      ∃ st2 log,
        forLoop (listSource ps data) (n + 1) st = .finished (data.drop st.index) st2 log
        ∧ CacheConsistent (listSource ps data) st2
        ∧ st2.index = data.length
        ∧ (∀ p xs, st.cached_pages p = some xs → st2.cached_pages p = some xs)
        ∧ (∀ j, st.index ≤ j → j < data.length →
            st2.cached_pages ((j / ps : Nat) : Int) ≠ none)
        ∧ ((∀ j, st.index ≤ j → j < data.length →
            st.cached_pages ((j / ps : Nat) : Int) ≠ none) → log = []) := by
  intro n
  induction n with
  | zero =>
    intro st hcons hlen
    have hstop : nextPI (listSource ps data) st = (.error .stopIteration, st, []) := by
      unfold nextPI
      dsimp only [listSource]
      rw [if_pos (by omega : (st.index : Int) ≥ (data.length : Int))]
    refine ⟨st, [], ?_, hcons, by omega, fun p xs hp => hp, ?_, fun _ => rfl⟩
    · rw [forLoop_succ, hstop]
      dsimp only
      have hL : st.index = data.length := by omega
      rw [hL, List.drop_length]
    · intro j hj1 hj2
      exact absurd hj2 (by omega)
  | succ n ih =>
    intro st hcons hlen
    have hk : st.index < data.length := by omega
    have hconsA : CacheConsistent (listSource ps data) ⟨st.cached_pages, st.index + 1⟩ :=
      hcons
    obtain ⟨st1, log1, heq, hcons1, hidx1, hmono1, hcov1, hhit1, hmem1, hnodup1⟩ :=
      getitem_valid ps data ⟨st.cached_pages, st.index + 1⟩ st.index hps hconsA hk
    have hnext : nextPI (listSource ps data) st =
        (.ok (data.get ⟨st.index, hk⟩), st1, log1) := by
      unfold nextPI
      dsimp only [listSource]
      rw [if_neg (by omega : ¬((st.index : Int) ≥ (data.length : Int)))]
      exact heq
    have hidx1' : st1.index = st.index + 1 := hidx1
    obtain ⟨st2, log2, hrec, hcons2, hidx2, hmono2, hcov2, hempty2⟩ :=
      ih st1 hcons1 (by omega)
    refine ⟨st2, log1 ++ log2, ?_, hcons2, hidx2, ?_, ?_, ?_⟩
    · rw [forLoop_succ, hnext]
      dsimp only
      rw [hrec]
      dsimp only
      rw [hidx1']
      rw [List.drop_eq_getElem_cons hk]
      rfl
    · intro p xs hp
      exact hmono2 p xs (hmono1 p xs hp)
    · intro j hj1 hj2
      by_cases hje : j = st.index
      · subst hje
        rcases ho : st1.cached_pages ((st.index / ps : Nat) : Int) with _ | xs
        · exact absurd ho hcov1
        · rw [hmono2 _ _ ho]
          simp
      · exact hcov2 j (by omega) hj2
    · intro hall
      obtain ⟨hst1, hlog1⟩ := hhit1 (hall st.index (le_refl _) hk)
      have hlog2 : log2 = [] := by
        apply hempty2
        intro j hj1 hj2
        rw [hst1]
        exact hall j (by omega) hj2
      rw [hlog1, hlog2]
      rfl

/-! Effects of whole operations against a `listSource`: consistency is
preserved, the fetch log of a single call is duplicate-free, every logged
page was uncached before the call and is cached after it. -/

lemma getitem_effects (ps : Nat) (data : List α) (hps : 0 < ps) (st : IterState α)
    (hcons : CacheConsistent (listSource ps data) st) (x : PyVal) :
    CacheConsistent (listSource ps data) (getitemPI (listSource ps data) st x).2.1
    ∧ (getitemPI (listSource ps data) st x).2.2.Nodup
    ∧ (∀ p, p ∈ (getitemPI (listSource ps data) st x).2.2 →
        st.cached_pages p = none
        ∧ (getitemPI (listSource ps data) st x).2.1.cached_pages p ≠ none) := by
  cases x with
  | other t =>
    exact ⟨hcons, List.nodup_nil, fun p hp => absurd hp (List.not_mem_nil p)⟩
  | int i =>
    by_cases hneg : i < 0
    · have hc : (containsPI (listSource ps data) st (.int i)).1 = .ok false := by
        rw [containsPI_int_neg _ _ _ hneg]
      have hg : getitemPI (listSource ps data) st (.int i) =
          (.error (.indexError ("Index out of bounds: " ++ toString i)), st, []) := by
        simp only [getitemPI, hc]
      rw [hg]
      exact ⟨hcons, List.nodup_nil, fun p hp => absurd hp (List.not_mem_nil p)⟩
    · have hnn : 0 ≤ i := by omega
      by_cases hlt : i < (data.length : Int)
      · have hieq : i = ((i.toNat : Nat) : Int) := (Int.toNat_of_nonneg hnn).symm
        have hlt2 : i.toNat < data.length := by omega
        obtain ⟨st1, log1, heq, hcons1, -, -, -, -, hmem1, hnodup1⟩ :=
          getitem_valid ps data st i.toNat hps hcons hlt2
        rw [hieq, heq]
        exact ⟨hcons1, hnodup1, hmem1⟩
      · have hc : (containsPI (listSource ps data) st (.int i)).1 = .ok false := by
          rw [containsPI_int_nonneg (listSource ps data) st i (data.length : Int) hnn rfl
            (by omega)]
          simp [hlt]
        have hg : getitemPI (listSource ps data) st (.int i) =
            (.error (.indexError ("Index out of bounds: " ++ toString i)), st, []) := by
          simp only [getitemPI, hc]
        rw [hg]
        exact ⟨hcons, List.nodup_nil, fun p hp => absurd hp (List.not_mem_nil p)⟩

lemma next_cache_mono (src : PageSource α) (st : IterState α) (p : Int) (xs : List α)
    (hp : st.cached_pages p = some xs) :
    (nextPI src st).2.1.cached_pages p = some xs := by
  unfold nextPI
  split
  · exact hp
  · split
    · exact hp
    · exact getitem_cache_mono src ⟨st.cached_pages, st.index + 1⟩ (.int (st.index : Int)) p xs hp

lemma next_effects (ps : Nat) (data : List α) (hps : 0 < ps) (st : IterState α)
    (hcons : CacheConsistent (listSource ps data) st) :
    CacheConsistent (listSource ps data) (nextPI (listSource ps data) st).2.1
    ∧ (nextPI (listSource ps data) st).2.2.Nodup
    ∧ (∀ p, p ∈ (nextPI (listSource ps data) st).2.2 →
        st.cached_pages p = none
        ∧ (nextPI (listSource ps data) st).2.1.cached_pages p ≠ none) := by
  unfold nextPI
  dsimp only [listSource]
  by_cases hge : (st.index : Int) ≥ (data.length : Int)
  · rw [if_pos hge]
    exact ⟨hcons, List.nodup_nil, fun p hp => absurd hp (List.not_mem_nil p)⟩
  · rw [if_neg hge]
    exact getitem_effects ps data hps ⟨st.cached_pages, st.index + 1⟩ hcons (.int (st.index : Int))

lemma runOp_cache_mono (src : PageSource α) (st : IterState α) (op : Op α) (p : Int)
    (xs : List α) (hp : st.cached_pages p = some xs) :
    (runOp src st op).1.cached_pages p = some xs := by
  cases op with
  | get x => exact getitem_cache_mono src st x p xs hp
  | set k v => exact hp
  | del k => exact hp
  | contains x =>
    show ((containsPI src st x).2).1.cached_pages p = some xs
    rw [containsPI_snd src st x]
    exact hp
  | iter => exact hp
  | next => exact next_cache_mono src st p xs hp

lemma runOp_effects (ps : Nat) (data : List α) (hps : 0 < ps) (st : IterState α)
    (hcons : CacheConsistent (listSource ps data) st) (op : Op α) :
    CacheConsistent (listSource ps data) (runOp (listSource ps data) st op).1
    ∧ (runOp (listSource ps data) st op).2.Nodup
    ∧ (∀ p, p ∈ (runOp (listSource ps data) st op).2 →
        st.cached_pages p = none
        ∧ (runOp (listSource ps data) st op).1.cached_pages p ≠ none) := by
  cases op with
  | get x => exact getitem_effects ps data hps st hcons x
  | set k v => exact ⟨hcons, List.nodup_nil, fun p hp => absurd hp (List.not_mem_nil p)⟩
  | del k => exact ⟨hcons, List.nodup_nil, fun p hp => absurd hp (List.not_mem_nil p)⟩
  | contains x =>
    have h2 : (containsPI (listSource ps data) st x).2 = (st, []) :=
      containsPI_snd (listSource ps data) st x
    dsimp only [runOp]
    rw [h2]
    exact ⟨hcons, List.nodup_nil, fun p hp => absurd hp (List.not_mem_nil p)⟩
  | iter => exact ⟨hcons, List.nodup_nil, fun p hp => absurd hp (List.not_mem_nil p)⟩
  | next => exact next_effects ps data hps st hcons

lemma runOps_cache_mono (src : PageSource α) :
    ∀ (ops : List (Op α)) (st : IterState α) (p : Int) (xs : List α),
      st.cached_pages p = some xs → (runOps src st ops).1.cached_pages p = some xs := by
  intro ops
  induction ops with
  | nil => intro st p xs hp; exact hp
  | cons op ops ih =>
    intro st p xs hp
    exact ih _ p xs (runOp_cache_mono src st op p xs hp)

lemma runOps_effects (ps : Nat) (data : List α) (hps : 0 < ps) :
    ∀ (ops : List (Op α)) (st : IterState α), CacheConsistent (listSource ps data) st →
      CacheConsistent (listSource ps data) (runOps (listSource ps data) st ops).1
      ∧ (runOps (listSource ps data) st ops).2.Nodup
      ∧ (∀ p, p ∈ (runOps (listSource ps data) st ops).2 →
          st.cached_pages p = none
          ∧ (runOps (listSource ps data) st ops).1.cached_pages p ≠ none) := by
  intro ops
  induction ops with
  | nil =>
    intro st hcons
    exact ⟨hcons, List.nodup_nil, fun p hp => absurd hp (List.not_mem_nil p)⟩
  | cons op ops ih =>
    intro st hcons
    obtain ⟨hcons1, hnodup1, hmem1⟩ := runOp_effects ps data hps st hcons op
    obtain ⟨hcons2, hnodup2, hmem2⟩ := ih (runOp (listSource ps data) st op).1 hcons1
    have hr : runOps (listSource ps data) st (op :: ops) =
        ((runOps (listSource ps data) (runOp (listSource ps data) st op).1 ops).1,
         (runOp (listSource ps data) st op).2 ++
           (runOps (listSource ps data) (runOp (listSource ps data) st op).1 ops).2) := rfl
    rw [hr]
    refine ⟨hcons2, ?_, ?_⟩
    · rw [List.nodup_append]
      refine ⟨hnodup1, hnodup2, ?_⟩
      intro p hp1 hp2
      obtain ⟨-, hnn⟩ := hmem1 p hp1
      obtain ⟨hz, -⟩ := hmem2 p hp2
      exact hnn hz
    · intro p hp
      rcases List.mem_append.mp hp with h1 | h2
      · obtain ⟨hz, hnn⟩ := hmem1 p h1
        refine ⟨hz, ?_⟩
        rcases ho : (runOp (listSource ps data) st op).1.cached_pages p with _ | ys
        · exact absurd ho hnn
        · rw [runOps_cache_mono (listSource ps data) ops _ p ys ho]
          simp
      · obtain ⟨hz2, hnn2⟩ := hmem2 p h2
        refine ⟨?_, hnn2⟩
        rcases ho : st.cached_pages p with _ | ys
        · rfl
        · rw [runOp_cache_mono (listSource ps data) st op p ys ho] at hz2
          cases hz2

/-- A source whose every fetch fails with an opaque error, with page size 3
and total size 8; it exercises error propagation out of `get_page`. -/
def failSource (α : Type) : PageSource α :=
  ⟨.ok 3, .ok 8, fun _ => .error (.sourceError "boom")⟩

/-- C1: for a `PageSource` whose page `p` holds the slice
`[p*pageSize, min((p+1)*pageSize, totalSize))` of a flat list, `get(offset)`
with `0 ≤ offset < totalSize` returns the flat list's element at `offset`,
which is exactly the element at intra-page position `offset mod pageSize` of
page `floor(offset / pageSize)` (integer division, non-negative modulo). -/
theorem get_returns_flat_element (ps : Nat) (data : List α) (st : IterState α) (i : Nat)
    (hps : 0 < ps) (hcons : CacheConsistent (listSource ps data) st) (h : i < data.length) :
    (getitemPI (listSource ps data) st (.int (i : Int))).1 = .ok (data.get ⟨i, h⟩)
    ∧ ((data.drop (i / ps * ps)).take ps)[i % ps]? = some (data.get ⟨i, h⟩) := by
  obtain ⟨st1, log1, heq, -⟩ := getitem_valid ps data st i hps hcons h
  constructor
  · rw [heq]
  · rw [slice_getElem? data ps i hps, List.getElem?_eq_getElem h, List.get_eq_getElem]

theorem get_returns_flat_element_witness :
    (getitemPI (listSource 3 ([1, 2, 3, 4, 5, 6, 7, 8] : List Nat)) (initState Nat)
        (.int ((4 : Nat) : Int))).1
      = .ok (([1, 2, 3, 4, 5, 6, 7, 8] : List Nat).get ⟨4, by decide⟩) :=
  (get_returns_flat_element 3 [1, 2, 3, 4, 5, 6, 7, 8] (initState Nat) 4 (by decide)
    (fun p xs hp => nomatch hp) (by decide)).1

/-- C2: a full sequential pass over a list-backed `PagedIterator` yields
exactly the flat data in order and terminates normally (`StopIteration`, not
an error); a second full pass on the same instance yields the identical
sequence, fetches nothing (its fetch log is empty) because starting a new
pass resets only the cursor and leaves the page cache intact. -/
theorem iteration_two_passes (ps : Nat) (data : List α) (hps : 0 < ps) :
    ∃ st1 log1 st2 log2,
      forLoop (listSource ps data) (data.length + 1) (iterPI (initState α)) =
          .finished data st1 log1
      ∧ forLoop (listSource ps data) (data.length + 1) (iterPI st1) = .finished data st2 log2
      ∧ log2 = []
      ∧ iterPI st1 = ⟨st1.cached_pages, 0⟩ := by
  have hcons0 : CacheConsistent (listSource ps data) (iterPI (initState α)) :=
    fun p xs hp => nomatch hp
  obtain ⟨st1, log1, h1, hcons1, -, -, hcov1, -⟩ :=
    forLoop_run ps data hps data.length (iterPI (initState α)) hcons0 (Nat.zero_add _)
  have hconsB : CacheConsistent (listSource ps data) (iterPI st1) := hcons1
  obtain ⟨st2, log2, h2, -, -, -, -, hempty⟩ :=
    forLoop_run ps data hps data.length (iterPI st1) hconsB (Nat.zero_add _)
  have hlog2 : log2 = [] := hempty (fun j hj1 hj2 => hcov1 j (Nat.zero_le j) hj2)
  exact ⟨st1, log1, st2, log2, h1, h2, hlog2, rfl⟩

theorem iteration_two_passes_witness :
    0 < 3
    ∧ (∃ st1 log1 st2 log2,
        forLoop (listSource 3 ([1, 2, 3, 4, 5, 6, 7, 8] : List Nat))
            (([1, 2, 3, 4, 5, 6, 7, 8] : List Nat).length + 1) (iterPI (initState Nat)) =
          .finished [1, 2, 3, 4, 5, 6, 7, 8] st1 log1
        ∧ forLoop (listSource 3 ([1, 2, 3, 4, 5, 6, 7, 8] : List Nat))
            (([1, 2, 3, 4, 5, 6, 7, 8] : List Nat).length + 1) (iterPI st1) =
          .finished [1, 2, 3, 4, 5, 6, 7, 8] st2 log2
        ∧ log2 = []
        ∧ iterPI st1 = ⟨st1.cached_pages, 0⟩) :=
  ⟨by decide, iteration_two_passes 3 [1, 2, 3, 4, 5, 6, 7, 8] (by decide)⟩

/-- C3: against a deterministic list-backed source, (a) `get(i)` returns the
same fixed value — the flat element — on every call from every reachable
(cache-consistent) state, so reads are idempotent; (b) over any lifetime of
operations started on a fresh instance, `get_page` is invoked at most once
per distinct page number (the concatenated fetch log is duplicate-free);
(c) for any source whatsoever, a populated cache entry is never overwritten
or removed by any operation. -/
theorem reads_idempotent_single_fetch (ps : Nat) (data : List α) (hps : 0 < ps) :
    (∀ (st : IterState α), CacheConsistent (listSource ps data) st →
       ∀ (i : Nat) (h : i < data.length),
         (getitemPI (listSource ps data) st (.int (i : Int))).1 = .ok (data.get ⟨i, h⟩))
    ∧ (∀ ops : List (Op α), ((runOps (listSource ps data) (initState α) ops).2).Nodup)
    ∧ (∀ (src : PageSource α) (st : IterState α) (op : Op α) (p : Int) (xs : List α),
        st.cached_pages p = some xs → (runOp src st op).1.cached_pages p = some xs) := by
  refine ⟨?_, ?_, ?_⟩
  · intro st hcons i h
    obtain ⟨st1, log1, heq, -⟩ := getitem_valid ps data st i hps hcons h
    rw [heq]
  · intro ops
    exact (runOps_effects ps data hps ops (initState α) (fun p xs hp => nomatch hp)).2.1
  · intro src st op p xs hp
    exact runOp_cache_mono src st op p xs hp

theorem reads_idempotent_single_fetch_witness :
    0 < 3
    ∧ ((∀ (st : IterState Nat),
          CacheConsistent (listSource 3 ([1, 2, 3, 4, 5, 6, 7, 8] : List Nat)) st →
          ∀ (i : Nat) (h : i < ([1, 2, 3, 4, 5, 6, 7, 8] : List Nat).length),
            (getitemPI (listSource 3 ([1, 2, 3, 4, 5, 6, 7, 8] : List Nat)) st
                (.int (i : Int))).1 =
              .ok (([1, 2, 3, 4, 5, 6, 7, 8] : List Nat).get ⟨i, h⟩))
      ∧ (∀ ops : List (Op Nat),
          ((runOps (listSource 3 ([1, 2, 3, 4, 5, 6, 7, 8] : List Nat)) (initState Nat)
              ops).2).Nodup)
      ∧ (∀ (src : PageSource Nat) (st : IterState Nat) (op : Op Nat) (p : Int)
            (xs : List Nat),
          st.cached_pages p = some xs → (runOp src st op).1.cached_pages p = some xs)) :=
  ⟨by decide, reads_idempotent_single_fetch 3 [1, 2, 3, 4, 5, 6, 7, 8] (by decide)⟩

/-- C4: `get` checks the argument type before bounds: every non-integer input
fails with `ValueError` ("Index must be a positive integer: <value>") without
consulting bounds or fetching, and every integer offset that is negative or
`≥ totalSize` fails with `IndexError` ("Index out of bounds: <value>")
without fetching any page; the state is unchanged in both cases. -/
theorem get_checks_type_then_bounds (src : PageSource α) (st : IterState α) (ts : Int)
    (h1 : src.total_size = .ok ts) (h2 : 0 ≤ ts) :
    (∀ t, getitemPI src st (.other t) =
        (.error (.valueError ("Index must be a positive integer: " ++ t)), st, []))
    ∧ (∀ i : Int, i < 0 ∨ ts ≤ i →
        getitemPI src st (.int i) =
          (.error (.indexError ("Index out of bounds: " ++ toString i)), st, [])) := by
  refine ⟨fun t => rfl, ?_⟩
  intro i hi
  rcases hi with hi | hi
  · have hc : (containsPI src st (.int i)).1 = .ok false := by
      rw [containsPI_int_neg src st i hi]
    simp only [getitemPI, hc]
  · have hc : (containsPI src st (.int i)).1 = .ok false := by
      rw [containsPI_int_nonneg src st i ts (by omega) h1 h2]
      have hd : decide (i < ts) = false := decide_eq_false (by omega)
      rw [hd]
    simp only [getitemPI, hc]

theorem get_checks_type_then_bounds_witness :
    (listSource 3 ([1, 2, 3, 4, 5, 6, 7, 8] : List Nat)).total_size = .ok 8
    ∧ (0 : Int) ≤ 8
    ∧ ((∀ t, getitemPI (listSource 3 ([1, 2, 3, 4, 5, 6, 7, 8] : List Nat)) (initState Nat)
          (.other t) =
          (.error (.valueError ("Index must be a positive integer: " ++ t)),
            initState Nat, []))
      ∧ (∀ i : Int, i < 0 ∨ 8 ≤ i →
          getitemPI (listSource 3 ([1, 2, 3, 4, 5, 6, 7, 8] : List Nat)) (initState Nat)
            (.int i) =
            (.error (.indexError ("Index out of bounds: " ++ toString i)),
              initState Nat, []))) :=
  ⟨rfl, by decide,
    get_checks_type_then_bounds (listSource 3 [1, 2, 3, 4, 5, 6, 7, 8]) (initState Nat) 8
      rfl (by decide)⟩

/-- C5: when `get_page` fails during `get(offset)`, the error propagates
unchanged, the object state is exactly the input state (no cache entry is
stored for the failed page, previously cached pages are untouched), the fetch
was attempted (it is in the log), and a subsequent access to the same offset
retries the fetch with the same outcome. -/
theorem fetch_error_propagates (src : PageSource α) (st : IterState α) (i ts ps : Int)
    (e : PyError)
    (h1 : src.total_size = .ok ts) (h2 : 0 ≤ i) (h3 : i < ts)
    (h4 : src.page_size = .ok ps) (h5 : ps ≠ 0)
    (h6 : st.cached_pages (Int.tdiv i ps) = none)
    (h7 : src.get_page (Int.tdiv i ps) = .error e) :
    getitemPI src st (.int i) = (.error e, st, [Int.tdiv i ps])
    ∧ getitemPI src (getitemPI src st (.int i)).2.1 (.int i) =
        (.error e, st, [Int.tdiv i ps]) := by
  have hc : (containsPI src st (.int i)).1 = .ok true := by
    rw [containsPI_int_nonneg src st i ts h2 h1 (by omega)]
    have hd : decide (i < ts) = true := decide_eq_true h3
    rw [hd]
  have hmain : getitemPI src st (.int i) = (.error e, st, [Int.tdiv i ps]) := by
    simp only [getitemPI, hc, h4, if_neg h5, h6, h7]
  refine ⟨hmain, ?_⟩
  rw [show (getitemPI src st (.int i)).2.1 = st from by rw [hmain]]
  exact hmain

theorem fetch_error_propagates_witness :
    (failSource Nat).total_size = .ok 8
    ∧ (0 : Int) ≤ 4 ∧ (4 : Int) < 8
    ∧ (failSource Nat).page_size = .ok 3 ∧ (3 : Int) ≠ 0
    ∧ (initState Nat).cached_pages (Int.tdiv 4 3) = none
    ∧ (failSource Nat).get_page (Int.tdiv 4 3) = .error (.sourceError "boom")
    ∧ (getitemPI (failSource Nat) (initState Nat) (.int 4) =
        (.error (.sourceError "boom"), initState Nat, [Int.tdiv 4 3])
      ∧ getitemPI (failSource Nat)
          (getitemPI (failSource Nat) (initState Nat) (.int 4)).2.1 (.int 4) =
        (.error (.sourceError "boom"), initState Nat, [Int.tdiv 4 3])) :=
  ⟨rfl, by decide, by decide, rfl, by decide, rfl, rfl,
    fetch_error_propagates (failSource Nat) (initState Nat) 4 8 3 (.sourceError "boom")
      rfl (by decide) (by decide) rfl (by decide) rfl rfl⟩

/-- C6: on an instance whose source overrides nothing, reading `page_size`
fails with the not-implemented `RuntimeError`, invoking `get_page` fails with
the not-implemented `RuntimeError`, `total_size` defaults to 0 so the length
is 0, every integer `get(i)` fails out-of-bounds, and iteration finishes
immediately yielding no items with `get_page` never invoked. -/
theorem default_source_empty (α : Type) (st : IterState α) :
    (defaultSource α).page_size = .error (.runtimeError "page_size() must be implemented.")
    ∧ (∀ p, (defaultSource α).get_page p =
        .error (.runtimeError "get_page() must be implemented."))
    ∧ (defaultSource α).total_size = .ok 0
    ∧ pyLen (defaultSource α) = .ok 0
    ∧ (∀ i : Int, (getitemPI (defaultSource α) st (.int i)).1 =
        .error (.indexError ("Index out of bounds: " ++ toString i)))
    ∧ (∀ fuel : Nat, forLoop (defaultSource α) (fuel + 1) (iterPI st) =
        .finished [] (iterPI st) []) := by
  refine ⟨rfl, fun p => rfl, rfl, rfl, ?_, ?_⟩
  · intro i
    by_cases hneg : i < 0
    · have hc : (containsPI (defaultSource α) st (.int i)).1 = .ok false := by
        rw [containsPI_int_neg (defaultSource α) st i hneg]
      simp only [getitemPI, hc]
    · have hc : (containsPI (defaultSource α) st (.int i)).1 = .ok false := by
        rw [containsPI_int_nonneg (defaultSource α) st i 0 (by omega) rfl (by omega)]
        have hd : decide (i < 0) = false := decide_eq_false hneg
        rw [hd]
      simp only [getitemPI, hc]
  · intro fuel
    have hn : nextPI (defaultSource α) (iterPI st) =
        (.error .stopIteration, iterPI st, []) := by
      unfold nextPI
      dsimp only [defaultSource]
      rw [if_pos (by omega : (((iterPI st).index : Nat) : Int) ≥ 0)]
    rw [forLoop_succ, hn]

/-- C7: `__setitem__` and `__delitem__` fail with `RuntimeError` for every
key and value, valid or not, and leave the state (cache and cursor) exactly
unchanged — they never silently no-op. -/
theorem set_del_always_error (st : IterState α) (k : PyVal) (v : α) :
    setitemPI st k v = (.error (.runtimeError "Setting values is not allowed."), st, [])
    ∧ delitemPI st k = (.error (.runtimeError "Unsetting values is not allowed."), st, []) :=
  ⟨rfl, rfl⟩

/-- C8: for every integer offset, `__contains__` returns exactly the truth
value of `0 ≤ offset < totalSize`, leaves the state unchanged and never
invokes `get_page` (empty fetch log). -/
theorem contains_iff_bounds (src : PageSource α) (st : IterState α) (ts : Int)
    (h1 : src.total_size = .ok ts) (h2 : 0 ≤ ts) (i : Int) :
    containsPI src st (.int i) = (.ok (decide (0 ≤ i ∧ i < ts)), st, []) := by
  by_cases hneg : i < 0
  · rw [containsPI_int_neg src st i hneg]
    have hd : decide (0 ≤ i ∧ i < ts) = false := decide_eq_false (by omega)
    rw [hd]
  · rw [containsPI_int_nonneg src st i ts (by omega) h1 h2]
    have hd : decide (0 ≤ i ∧ i < ts) = decide (i < ts) := by
      apply decide_eq_decide.mpr
      omega
    rw [hd]

theorem contains_iff_bounds_witness :
    (listSource 3 ([1, 2, 3, 4, 5, 6, 7, 8] : List Nat)).total_size = .ok 8
    ∧ (0 : Int) ≤ 8
    ∧ containsPI (listSource 3 ([1, 2, 3, 4, 5, 6, 7, 8] : List Nat)) (initState Nat)
        (.int 5) = (.ok (decide ((0 : Int) ≤ 5 ∧ (5 : Int) < 8)), initState Nat, []) :=
  ⟨rfl, by decide,
    contains_iff_bounds (listSource 3 [1, 2, 3, 4, 5, 6, 7, 8]) (initState Nat) 8 rfl
      (by decide) 5⟩

/-- C9 counterexample: on the docstring's own source, `__contains__` applied
to the non-integer `"foo"` raises `AssertionError` — it does not return
`false`, contradicting the claim that non-integer inputs return false rather
than raising. -/
theorem contains_nonint_counterexample :
    (containsPI (listSource 3 ([1, 2, 3, 4, 5, 6, 7, 8] : List Nat)) (initState Nat)
        (.other "foo")).1 = .error .assertionError
    ∧ (containsPI (listSource 3 ([1, 2, 3, 4, 5, 6, 7, 8] : List Nat)) (initState Nat)
        (.other "foo")).1 ≠ .ok false :=
  ⟨rfl, fun h => nomatch h⟩

/-- C9 (amended): for every non-integer input, `__contains__` raises
`AssertionError` (the `assert isinstance(offset, int)` rejects it) rather
than returning `false`; the state is untouched and nothing is fetched. -/
theorem contains_nonint_asserts (src : PageSource α) (st : IterState α) (t : String) :
    containsPI src st (.other t) = (.error .assertionError, st, []) := rfl

/-- C10: `next` increments the cursor before performing the element access:
when the access fails (for instance because `get_page` raises), the error
propagates but the cursor remains incremented past the failing index, so a
subsequent `next` attempts the following index instead of retrying. -/
theorem next_increments_before_access (src : PageSource α) (st : IterState α)
    (ts : Int) (e : PyError)
    (h1 : src.total_size = .ok ts) (h2 : (st.index : Int) < ts)
    (h3 : (getitemPI src ⟨st.cached_pages, st.index + 1⟩ (.int (st.index : Int))).1 =
      .error e) :
    (nextPI src st).1 = .error e ∧ (nextPI src st).2.1.index = st.index + 1 := by
  have hn : nextPI src st =
      getitemPI src ⟨st.cached_pages, st.index + 1⟩ (.int (st.index : Int)) := by
    unfold nextPI
    simp only [h1]
    rw [if_neg (by omega : ¬((st.index : Int) ≥ ts))]
  constructor
  · rw [hn]
    exact h3
  · rw [hn]
    exact getitem_index src ⟨st.cached_pages, st.index + 1⟩ (.int (st.index : Int))

theorem next_increments_before_access_witness :
    (failSource Nat).total_size = .ok 8
    ∧ (((initState Nat).index : Int) < 8)
    ∧ (getitemPI (failSource Nat) ⟨(initState Nat).cached_pages, (initState Nat).index + 1⟩
        (.int ((initState Nat).index : Int))).1 = .error (.sourceError "boom")
    ∧ ((nextPI (failSource Nat) (initState Nat)).1 = .error (.sourceError "boom")
      ∧ (nextPI (failSource Nat) (initState Nat)).2.1.index = (initState Nat).index + 1) :=
  ⟨rfl, by decide, rfl,
    next_increments_before_access (failSource Nat) (initState Nat) 8 (.sourceError "boom")
      rfl (by decide) rfl⟩

end Pagediterator
